import Mathlib

/-!
Shallow embedding of the superTTS engine pool and voice-style cache
(src/engine_pool.rs) together with the server start-up and request
dispatch logic that uses them (src/api_server.rs).

Modelling conventions:
* Engines are identified by their id string (the Rust code stores
  `HashMap<String, Arc<Mutex<TextToSpeech>>>`; the engine value itself is
  external and irrelevant to the pool bookkeeping, so we keep the ids).
  Hash maps are modelled as association lists in iteration order; the
  Rust iteration order of a `HashMap` is arbitrary but fixed between
  mutations, which a list models faithfully (`keys().next()` = head,
  `min_by_key` = first minimum in iteration order, as documented for
  `Iterator::min_by_key`).
* `SystemTime` instants are natural numbers; `u64` counters are `Nat`
  (all counters only ever step by one, and no claim involves wrap-around).
* The filesystem, the style loader, the engine factory global
  `load_text_to_speech`, canonicalization and the clock are oracles
  passed in explicitly (`Env`, the `loadEngine` arguments); external
  fallible calls yield `Option` results.
* `checkout` suspends on `timeout(semaphore.acquire())`.  In the
  sequential embedding no concurrent release can arrive during the wait,
  so the wait times out exactly when no permit is available, which is
  also the situation the claims describe.
-/

/-- Voice style value as parsed by the external `load_voice_style`.
Only its identity matters to the pool, so it is a wrapped tag. -/
structure Style where
  tag : Nat
deriving DecidableEq, Repr

/-- Result of a successful `std::fs::metadata` call: the modification
time when `metadata.modified()` succeeds. -/
structure FileInfo where
  mtime : Option Nat
deriving DecidableEq, Repr

/-- Snapshot of the filesystem: `none` when the path does not exist
(`Path::exists` false / `std::fs::metadata` fails), `some info`
otherwise. -/
def FS : Type := String → Option FileInfo

/-- External oracles used by the cache: filesystem snapshot,
`Path::canonicalize` (which may fail), `load_voice_style` and the
current `SystemTime::now`. -/
structure Env where
  fs : FS
  canonical : String → Option String
  load_style : String → Option Style
  now : Nat

/-- Cache entry for a voice style, mirroring `CacheEntry`. -/
structure CacheEntry where
  voice_style : Style
  last_accessed : Nat
  file_path : String
  file_modified : Option Nat
deriving DecidableEq, Repr

/-- Cumulative pool statistics, mirroring `PoolStats`. -/
structure PoolStats where
  total_checkouts : Nat
  cache_hits : Nat
  cache_misses : Nat
  engine_replacements : Nat
deriving DecidableEq, Repr

/-- Pool configuration, mirroring `EnginePoolConfig`. -/
structure EnginePoolConfig where
  engine_pool_size : Nat
  warmup_on_startup : Bool
  engine_checkout_timeout_ms : Nat
  voice_style_cache_size : Nat
  onnx_dir : String
  use_gpu : Bool
deriving DecidableEq, Repr

/-- The `Default` impl for `EnginePoolConfig`. -/
def EnginePoolConfig.default : EnginePoolConfig :=
  { engine_pool_size := 1
    warmup_on_startup := false
    engine_checkout_timeout_ms := 5000
    voice_style_cache_size := 10
    onnx_dir := "assets/onnx"
    use_gpu := false }

/-- Error discriminants of the `anyhow` errors produced by the pool. -/
inductive PoolError where
  | configError
  | warmupFailed
  | checkoutTimeout
  | semaphoreClosed
  | engineLoadError
  | styleLoadError
  | metadataError
deriving DecidableEq, Repr

/-- Handle returned by `checkout`, mirroring `EngineHandle`.  The Rust
struct stores the engine id and an `Arc` of the pool; crucially it does
NOT store the semaphore permit, and it has no `Drop` impl. -/
structure EngineHandle where
  engine_id : String
deriving DecidableEq, Repr

/-- State of a `TTSEnginePool`: the engine map, the semaphore permit
count, the voice cache map and the statistics, plus the owned config. -/
structure PoolState where
  engines : List String
  available_permits : Nat
  voice_cache : List (String × CacheEntry)
  stats : PoolStats
  config : EnginePoolConfig
deriving DecidableEq, Repr

/-! Association-list operations mirroring the `HashMap` operations used
by the cache. -/

/-- `HashMap::get`: first binding of the key in iteration order. -/
def lookupCache : List (String × CacheEntry) → String → Option CacheEntry
  | [], _ => none
  | (k, e) :: rest, key => if k = key then some e else lookupCache rest key

/-- `HashMap::remove`: drop the binding of the key. -/
def eraseKey : List (String × CacheEntry) → String → List (String × CacheEntry)
  | [], _ => []
  | (k1, e1) :: rest, k =>
    if k1 = k then eraseKey rest k else (k1, e1) :: eraseKey rest k

/-- `HashMap::insert`: replace any old binding, the new one last. -/
def insertCache (c : List (String × CacheEntry)) (k : String) (e : CacheEntry) :
    List (String × CacheEntry) :=
  eraseKey c k ++ [(k, e)]

/-- `iter().min_by_key(|(_, entry)| entry.last_accessed)`: the first
minimum in iteration order (`Iterator::min_by_key` keeps the first of
several equally minimal elements). -/
def minByAccess : List (String × CacheEntry) → Option (String × CacheEntry)
  | [] => none
  | x :: rest =>
    match minByAccess rest with
    | none => some x
    | some y => if y.2.last_accessed < x.2.last_accessed then some y else some x

/-- Cache key computation in `get_voice_style`:
`canonicalize().unwrap_or_else(|_| PathBuf::from(voice_path))`. -/
def cacheKey (env : Env) (voice_path : String) : String :=
  (env.canonical voice_path).getD voice_path

/-- `CacheEntry::new`: reads the file metadata (propagating failure with
`?`) and stamps the current time as last access. -/
def CacheEntry.new (env : Env) (voice_style : Style) (file_path : String) :
    Except PoolError CacheEntry :=
  match env.fs file_path with
  | none => .error .metadataError
  | some info =>
      .ok { voice_style := voice_style
            last_accessed := env.now
            file_path := file_path
            file_modified := info.mtime }

/-- `CacheEntry::is_valid`: invalid when the file no longer exists, or
when a recorded modification time exists, the metadata and modification
time are readable, and the current modification time is strictly newer.
All unreadable-metadata cases fall through to valid. -/
def CacheEntry.is_valid (env : Env) (e : CacheEntry) : Bool :=
  match env.fs e.file_path with
  | none => false
  | some info =>
    match e.file_modified, info.mtime with
    | some cached, some current => !(cached < current)
    | _, _ => true

namespace TTSEnginePool

/-- The warmup loop: loads engines 0,...,n-1 in order, inserting each
into the map, failing fast on the first load failure
(`Engine warmup failed`). -/
def warmupIds (loads : Nat → Option String) : Nat → Except PoolError (List String)
  | 0 => .ok []
  | n + 1 =>
    match warmupIds loads n with
    | .error e => .error e
    | .ok ids =>
      match loads n with
      | some id => .ok (ids ++ [id])
      | none => .error .warmupFailed

/-- `TTSEnginePool::new`: validates the pool size (only), builds the
empty pool with `pool_size` semaphore permits, then warms up when
requested.  `loads` gives the outcome of the i-th engine load during
warmup. -/
def new (config : EnginePoolConfig) (loads : Nat → Option String) :
    Except PoolError PoolState :=
  if config.engine_pool_size = 0 ∨ 10 < config.engine_pool_size then
    .error .configError
  else
    let base : PoolState :=
      { engines := []
        available_permits := config.engine_pool_size
        voice_cache := []
        stats := ⟨0, 0, 0, 0⟩
        config := config }
    if config.warmup_on_startup then
      match warmupIds loads config.engine_pool_size with
      | .error e => .error e
      | .ok ids => .ok { base with engines := ids }
    else
      .ok base

/-- `TTSEnginePool::checkout`.  The permit is bound to the local
`_permit`, which is dropped (returning the permit to the semaphore) on
every path out of `checkout`; the permit is not moved into the returned
`EngineHandle`.  `loadEngine` is the outcome of `load_text_to_speech`
should `create_engine` run. -/
def checkout (s : PoolState) (loadEngine : Option String) :
    PoolState × Except PoolError EngineHandle :=
  if s.available_permits = 0 then
    -- no permit and, sequentially, no release during the wait: the
    -- timeout elapses and checkout fails before touching any state
    (s, .error .checkoutTimeout)
  else
    -- permit acquired: held by `_permit` while the body runs
    let s1 := { s with available_permits := s.available_permits - 1 }
    let s2 := { s1 with stats := { s1.stats with
                  total_checkouts := s1.stats.total_checkouts + 1 } }
    match s2.engines with
    | [] =>
      -- lazy creation happens only when the engine map is empty
      match loadEngine with
      | none =>
        -- create_engine failed; `_permit` is dropped as the error
        -- propagates, restoring the permit
        ({ s2 with available_permits := s2.available_permits + 1 },
         .error .engineLoadError)
      | some id =>
        let s3 := { s2 with engines := [id] }
        -- `keys().next().unwrap()` on the now-singleton map, then
        -- `_permit` is dropped as checkout returns
        ({ s3 with available_permits := s3.available_permits + 1 },
         .ok ⟨id⟩)
    | e :: _ =>
      -- `keys().next().unwrap()`: first engine in iteration order,
      -- regardless of any other live handle; `_permit` dropped on return
      ({ s2 with available_permits := s2.available_permits + 1 },
       .ok ⟨e⟩)

/-- Disposal of an `EngineHandle`: the struct has no `Drop` impl and
holds no permit, so dropping it leaves the pool state unchanged. -/
def disposeHandle (s : PoolState) : PoolState := s

/-- The eviction step of `add_to_cache`: when the map is at or above
capacity (`cache.len() >= voice_style_cache_size`), remove the first
least-recently-accessed binding. -/
def evictIfFull (cap : Nat) (cache : List (String × CacheEntry)) :
    List (String × CacheEntry) :=
  if cap ≤ cache.length then
    match minByAccess cache with
    | some lru => eraseKey cache lru.1
    | none => cache
  else cache

/-- `TTSEnginePool::add_to_cache`: build the entry (propagating metadata
failure), evict when at or above capacity, then insert. -/
def add_to_cache (env : Env) (s : PoolState) (cache_key : String)
    (voice_style : Style) : Except PoolError PoolState :=
  match CacheEntry.new env voice_style cache_key with
  | .error e => .error e
  | .ok entry =>
    .ok { s with voice_cache :=
            (insertCache (evictIfFull s.config.voice_style_cache_size s.voice_cache)
              cache_key entry) }

/-- The miss branch of `get_voice_style`: count the miss, load the style
from disk, insert it into the cache. -/
def getStyleMiss (env : Env) (s : PoolState) (key voice_path : String) :
    PoolState × Except PoolError Style :=
  let s1 := { s with stats := { s.stats with
               cache_misses := s.stats.cache_misses + 1 } }
  match env.load_style voice_path with
  | none => (s1, .error .styleLoadError)
  | some style =>
    match add_to_cache env s1 key style with
    | .error e => (s1, .error e)
    | .ok s2 => (s2, .ok style)

/-- `TTSEnginePool::get_voice_style`: canonicalize, then on a valid hit
count the hit and return the cached clone (the entry itself is not
touched); otherwise take the miss branch. -/
def get_voice_style (env : Env) (s : PoolState) (voice_path : String) :
    PoolState × Except PoolError Style :=
  let key := cacheKey env voice_path
  match lookupCache s.voice_cache key with
  | some entry =>
    if entry.is_valid env then
      ({ s with stats := { s.stats with cache_hits := s.stats.cache_hits + 1 } },
       .ok entry.voice_style)
    else
      getStyleMiss env s key voice_path
  | none => getStyleMiss env s key voice_path

/-- Snapshot returned by `get_stats` (mirroring `PoolStatsResponse`; the
derived floating-point `cache_hit_rate` field is omitted, no claim
involves it). -/
structure StatsResponse where
  total_engines : Nat
  available_permits : Nat
  cached_voice_styles : Nat
  total_checkouts : Nat
  cache_hits : Nat
  cache_misses : Nat
  engine_replacements : Nat
deriving DecidableEq, Repr

/-- `TTSEnginePool::get_stats`. -/
def get_stats (s : PoolState) : StatsResponse :=
  { total_engines := s.engines.length
    available_permits := s.available_permits
    cached_voice_styles := s.voice_cache.length
    total_checkouts := s.stats.total_checkouts
    cache_hits := s.stats.cache_hits
    cache_misses := s.stats.cache_misses
    engine_replacements := s.stats.engine_replacements }

/-- `TTSEnginePool::_shutdown`: clears the engine map and the cache. -/
def shutdown (s : PoolState) : PoolState :=
  { s with engines := [], voice_cache := [] }

end TTSEnginePool

/-! Server start-up and request dispatch (src/api_server.rs). -/

/-- The TTS section of the server configuration (`TtsSettings`); fields
that only feed synthesis itself (`total_step`, `speed`,
`default_voice_style`) are carried for completeness. -/
structure TtsSettings where
  onnx_dir : String
  use_gpu : Bool
  total_step : Nat
  default_voice_style : String
  engine_pool_size : Nat
  warmup_on_startup : Bool
  engine_checkout_timeout_ms : Nat
  voice_style_cache_size : Nat
deriving DecidableEq, Repr

/-- The serde defaults and the `Default` impl both give pool size 1,
warmup off, timeout 5000, cache size 10. -/
def TtsSettings.default : TtsSettings :=
  { onnx_dir := "assets/onnx"
    use_gpu := false
    total_step := 5
    default_voice_style := "assets/voice_styles/M1.json"
    engine_pool_size := 1
    warmup_on_startup := false
    engine_checkout_timeout_ms := 5000
    voice_style_cache_size := 10 }

/-- The `EnginePoolConfig` that `start_server` builds from the settings. -/
def poolConfigOf (tts : TtsSettings) : EnginePoolConfig :=
  { engine_pool_size := tts.engine_pool_size
    warmup_on_startup := tts.warmup_on_startup
    engine_checkout_timeout_ms := tts.engine_checkout_timeout_ms
    voice_style_cache_size := tts.voice_style_cache_size
    onnx_dir := tts.onnx_dir
    use_gpu := tts.use_gpu }

/-- Pool initialization in `start_server`: a pool is attempted only when
`engine_pool_size > 1`, and a constructor failure falls back to `None`
(single-engine mode) with a warning. -/
def initEnginePool (tts : TtsSettings) (loads : Nat → Option String) :
    Option PoolState :=
  if 1 < tts.engine_pool_size then
    match TTSEnginePool.new (poolConfigOf tts) loads with
    | .ok pool => some pool
    | .error _ => none
  else
    none

/-- Which branch of `tts_speech` serves a request. -/
inductive ServePath where
  | pool
  | singleEngineFallback
deriving DecidableEq, Repr

/-- Request dispatch in `tts_speech`: the pool branch (checkout, cached
voice styles) runs exactly when `state.engine_pool` is `Some`; otherwise
the fallback branch runs, which performs no checkout and calls
`load_voice_style` directly with no cache. -/
def ttsServePath (engine_pool : Option PoolState) : ServePath :=
  match engine_pool with
  | some _ => .pool
  | none => .singleEngineFallback

/-! Spec-side predicate for the refinement part of the validity claim. -/

/-- Modelled from the spec: an entry is invalid exactly when its source
file no longer exists, or the on-disk modification time is strictly
newer than the modification time recorded when the entry was cached. -/
def specEntryInvalid (env : Env) (e : CacheEntry) : Prop :=
  env.fs e.file_path = none ∨
  ∃ cached current info, e.file_modified = some cached ∧
    env.fs e.file_path = some info ∧ info.mtime = some current ∧
    cached < current

/-! Reachability of pool states through the pool API. -/

/-- Pool states reachable from construction through the operations that
mutate pool state. -/
inductive PoolReachable : PoolState → Prop where
  | init (cfg : EnginePoolConfig) (loads : Nat → Option String) (s : PoolState) :
      TTSEnginePool.new cfg loads = .ok s → PoolReachable s
  | checkout (s s' : PoolState) (le : Option String)
      (r : Except PoolError EngineHandle) :
      PoolReachable s → TTSEnginePool.checkout s le = (s', r) → PoolReachable s'
  | style (s s' : PoolState) (env : Env) (p : String)
      (r : Except PoolError Style) :
      PoolReachable s → TTSEnginePool.get_voice_style env s p = (s', r) →
      PoolReachable s'
  | shutdown (s : PoolState) :
      PoolReachable s → PoolReachable (TTSEnginePool.shutdown s)

/-! Concrete fixtures used by the closed theorems below. -/

/-- Pool size 1, warmup on: the setting of the first admission claim. -/
def cfgOne : EnginePoolConfig :=
  { EnginePoolConfig.default with engine_pool_size := 1, warmup_on_startup := true }

/-- The pre-warmed size-1 pool produced by `new cfgOne`. -/
def preOne : PoolState :=
  { engines := ["e1"]
    available_permits := 1
    voice_cache := []
    stats := ⟨0, 0, 0, 0⟩
    config := cfgOne }

/-- Pool size 2, warmup on. -/
def cfgTwoWarm : EnginePoolConfig :=
  { EnginePoolConfig.default with engine_pool_size := 2, warmup_on_startup := true }

/-- The pre-warmed size-2 pool with two distinct engines. -/
def preTwo : PoolState :=
  { engines := ["e1", "e2"]
    available_permits := 2
    voice_cache := []
    stats := ⟨0, 0, 0, 0⟩
    config := cfgTwoWarm }

/-- Pool size 2, warmup off. -/
def cfgTwoLazy : EnginePoolConfig :=
  { EnginePoolConfig.default with engine_pool_size := 2 }

/-- The empty size-2 pool produced by `new cfgTwoLazy`. -/
def lazyTwo : PoolState :=
  { engines := []
    available_permits := 2
    voice_cache := []
    stats := ⟨0, 0, 0, 0⟩
    config := cfgTwoLazy }

/-- A pool state with no available permit (its one permit held by an
in-flight checkout elsewhere). -/
def zeroPermits : PoolState :=
  { engines := ["e1"]
    available_permits := 0
    voice_cache := []
    stats := ⟨4, 0, 0, 0⟩
    config := cfgOne }

/-- Environment with one voice-style file `v.json` of modification
time 10, observed at clock time 100. -/
def envHit : Env :=
  { fs := fun p => if p = "v.json" then some ⟨some 10⟩ else none
    canonical := fun _ => none
    load_style := fun _ => some ⟨9⟩
    now := 100 }

/-- A pool whose cache holds `v.json`, last accessed at time 5, with the
recorded modification time 10 matching the disk. -/
def poolHit : PoolState :=
  { engines := ["e1"]
    available_permits := 1
    voice_cache := [("v.json", ⟨⟨7⟩, 5, "v.json", some 10⟩)]
    stats := ⟨0, 0, 0, 0⟩
    config := cfgOne }

/-- A configuration with voice-style cache capacity 0 (and a valid pool
size). -/
def cfgCapZero : EnginePoolConfig :=
  { EnginePoolConfig.default with engine_pool_size := 2, voice_style_cache_size := 0 }

/-- The pool produced by `new cfgCapZero`. -/
def poolCapZero : PoolState :=
  { engines := []
    available_permits := 2
    voice_cache := []
    stats := ⟨0, 0, 0, 0⟩
    config := cfgCapZero }

/-- Server settings with an out-of-range pool size. -/
def ttsEleven : TtsSettings :=
  { TtsSettings.default with engine_pool_size := 11 }

/-! Claim theorems. -/

/-- C1: the admission permit is NOT held for the lifetime of the
returned handle.  On the pre-warmed size-1 pool, a checkout succeeds and
the returned state already has its permit back (`available_permits = 1`),
so a second checkout with the first handle still live succeeds
immediately instead of blocking: the permit is released when `checkout`
returns, not at handle disposal. -/
theorem c1_permit_released_at_checkout_return :
    TTSEnginePool.new cfgOne (fun _ => some "e1") = .ok preOne ∧
    (TTSEnginePool.checkout preOne none).2 = .ok ⟨"e1"⟩ ∧
    (TTSEnginePool.checkout preOne none).1.available_permits = 1 ∧
    (TTSEnginePool.checkout (TTSEnginePool.checkout preOne none).1 none).2
      = .ok ⟨"e1"⟩ := by
  refine ⟨rfl, rfl, rfl, rfl⟩

/-- C2: two checkouts, both completed while neither handle has been
disposed, on a warmed pool holding the two distinct idle engines `e1`
and `e2`: both handles are bound to the same engine, because `checkout`
always takes `keys().next()` with no idle/busy tagging. -/
theorem c2_two_live_handles_same_engine :
    TTSEnginePool.new cfgTwoWarm (fun i => if i = 0 then some "e1" else some "e2")
      = .ok preTwo ∧
    preTwo.engines = ["e1", "e2"] ∧
    (TTSEnginePool.checkout preTwo none).2 = .ok ⟨"e1"⟩ ∧
    (TTSEnginePool.checkout (TTSEnginePool.checkout preTwo none).1 none).2
      = .ok ⟨"e1"⟩ := by
  refine ⟨rfl, rfl, rfl, rfl⟩

/-- C3: with pool size 2 and no warmup, the first checkout creates one
engine; the second checkout, made while the first handle is still live
(one live engine, below the target 2, zero idle engines), creates no
second engine and binds the same engine, so the live-engine set stays at
size 1 under sustained demand.  (The part of the claim that does hold:
a failed lazy construction returns the load error with
`available_permits` restored, so the permit does not leak.) -/
theorem c3_no_growth_below_target :
    TTSEnginePool.new cfgTwoLazy (fun _ => none) = .ok lazyTwo ∧
    (TTSEnginePool.checkout lazyTwo (some "e1")).2 = .ok ⟨"e1"⟩ ∧
    (TTSEnginePool.checkout lazyTwo (some "e1")).1.engines = ["e1"] ∧
    (TTSEnginePool.checkout
       (TTSEnginePool.checkout lazyTwo (some "e1")).1 (some "e2")).2
      = .ok ⟨"e1"⟩ ∧
    (TTSEnginePool.checkout
       (TTSEnginePool.checkout lazyTwo (some "e1")).1 (some "e2")).1.engines
      = ["e1"] ∧
    (TTSEnginePool.checkout lazyTwo none).2 = .error .engineLoadError ∧
    (TTSEnginePool.checkout lazyTwo none).1.available_permits
      = lazyTwo.available_permits := by
  refine ⟨rfl, rfl, rfl, rfl, rfl, rfl, rfl⟩

/-- C4: a valid cache hit returns the cached value and increments the
hit counter, but does NOT update the last-access time: the whole cache
map, including the entry accessed at clock time 100 whose
`last_accessed` is 5, is returned unchanged (`CacheEntry::_touch` is
never called), so the hit does not remove the entry from eviction
priority. -/
theorem c4_hit_does_not_update_last_access :
    (TTSEnginePool.get_voice_style envHit poolHit "v.json").2 = .ok ⟨7⟩ ∧
    (TTSEnginePool.get_voice_style envHit poolHit "v.json").1.stats.cache_hits
      = 1 ∧
    envHit.now = 100 ∧
    (TTSEnginePool.get_voice_style envHit poolHit "v.json").1.voice_cache
      = [("v.json", ⟨⟨7⟩, 5, "v.json", some 10⟩)] := by
  refine ⟨rfl, rfl, rfl, rfl⟩

/-- C5: a checkout that times out waiting for a permit fails with the
timeout error and leaves the pool state entirely unchanged: no permit
consumed, no engine created, no statistics counter mutated. -/
theorem c5_timeout_has_no_side_effects (s : PoolState) (le : Option String)
    (h : s.available_permits = 0) :
    TTSEnginePool.checkout s le = (s, .error .checkoutTimeout) := by
  unfold TTSEnginePool.checkout
  rw [if_pos h]

/-- Witness for C5 at a concrete permit-exhausted pool. -/
theorem c5_witness :
    TTSEnginePool.checkout zeroPermits none
      = (zeroPermits, .error .checkoutTimeout) :=
  c5_timeout_has_no_side_effects zeroPermits none rfl

/-- C8 counterexample: pool construction with voice-style cache
capacity 0 (and a valid pool size) succeeds instead of failing with a
configuration error. -/
theorem c8_cex_capacity_zero_accepted :
    TTSEnginePool.new cfgCapZero (fun _ => none) = .ok poolCapZero ∧
    cfgCapZero.voice_style_cache_size = 0 := ⟨rfl, rfl⟩

/-- C8 amended: `TTSEnginePool::new` validates only the engine pool
size; with warmup off, construction succeeds exactly when the pool size
is between 1 and 10, regardless of the voice-style cache capacity, so a
capacity of 0 is accepted. -/
theorem c8_amended_only_pool_size_validated (cfg : EnginePoolConfig)
    (loads : Nat → Option String) (h : cfg.warmup_on_startup = false) :
    (TTSEnginePool.new cfg loads).isOk = true ↔
      1 ≤ cfg.engine_pool_size ∧ cfg.engine_pool_size ≤ 10 := by
  unfold TTSEnginePool.new
  by_cases h0 : cfg.engine_pool_size = 0 ∨ 10 < cfg.engine_pool_size
  · rw [if_pos h0]
    simp only [Except.isOk]
    constructor
    · intro hc; cases hc
    · intro hc; omega
  · rw [if_neg h0, h]
    simp only [Bool.false_eq_true, if_false, Except.isOk]
    constructor
    · intro _; omega
    · intro _; rfl

/-- Witness for C8 amended at the capacity-0 configuration. -/
theorem c8_amended_witness :
    (TTSEnginePool.new cfgCapZero (fun _ => none)).isOk = true :=
  (c8_amended_only_pool_size_validated cfgCapZero (fun _ => none) rfl).mpr
    (by decide)

/-- C9: the server builds an engine pool only when the configured
`engine_pool_size` is strictly greater than 1; the default pool size is
1, which the pool constructor itself accepts; and whenever no pool
exists (size at most 1, or pool construction failed at startup), request
dispatch takes the single-engine fallback branch, which performs no
checkout and no voice-style caching. -/
theorem c9_pool_only_above_size_one :
    TtsSettings.default.engine_pool_size = 1 ∧
    (∀ loads, (TTSEnginePool.new (poolConfigOf TtsSettings.default) loads).isOk
        = true) ∧
    (∀ loads, initEnginePool TtsSettings.default loads = none) ∧
    (∀ tts loads, tts.engine_pool_size ≤ 1 → initEnginePool tts loads = none) ∧
    (∀ tts loads err, TTSEnginePool.new (poolConfigOf tts) loads = .error err →
      initEnginePool tts loads = none) ∧
    (∀ tts loads s, initEnginePool tts loads = some s →
      1 < tts.engine_pool_size ∧
        TTSEnginePool.new (poolConfigOf tts) loads = .ok s) ∧
    (∀ p : Option PoolState,
      ttsServePath p = .singleEngineFallback ↔ p = none) := by
  refine ⟨rfl, fun _ => rfl, fun _ => rfl, ?_, ?_, ?_, ?_⟩
  · intro tts loads hle
    unfold initEnginePool
    rw [if_neg (by omega)]
  · intro tts loads err herr
    unfold initEnginePool
    by_cases h1 : 1 < tts.engine_pool_size
    · rw [if_pos h1, herr]
    · rw [if_neg h1]
  · intro tts loads s hsome
    unfold initEnginePool at hsome
    by_cases h1 : 1 < tts.engine_pool_size
    · rw [if_pos h1] at hsome
      refine ⟨h1, ?_⟩
      cases hn : TTSEnginePool.new (poolConfigOf tts) loads with
      | ok pool => rw [hn] at hsome; cases hsome; rfl
      | error e => rw [hn] at hsome; cases hsome
    · rw [if_neg h1] at hsome; cases hsome
  · intro p
    cases p <;> simp [ttsServePath]

/-- Witness for C9: the default configuration and a failing
configuration both leave the server in fallback mode. -/
theorem c9_witness :
    initEnginePool TtsSettings.default (fun _ => some "e") = none ∧
    initEnginePool ttsEleven (fun _ => some "e") = none ∧
    ttsServePath none = .singleEngineFallback :=
  ⟨c9_pool_only_above_size_one.2.2.1 (fun _ => some "e"),
   c9_pool_only_above_size_one.2.2.2.2.1 ttsEleven (fun _ => some "e")
     .configError rfl,
   (c9_pool_only_above_size_one.2.2.2.2.2.2 none).mpr rfl⟩

/-! Preservation lemmas for the engine-replacement counter. -/

/-- A freshly constructed pool has a zero replacement counter. -/
theorem new_ok_replacements_zero (cfg : EnginePoolConfig)
    (loads : Nat → Option String) (s : PoolState)
    (h : TTSEnginePool.new cfg loads = .ok s) :
    s.stats.engine_replacements = 0 := by
  unfold TTSEnginePool.new at h
  split at h
  · cases h
  · split at h
    · split at h
      · cases h
      · cases h; rfl
    · cases h; rfl

/-- `checkout` never touches the replacement counter. -/
theorem checkout_replacements (s : PoolState) (le : Option String) :
    (TTSEnginePool.checkout s le).1.stats.engine_replacements
      = s.stats.engine_replacements := by
  unfold TTSEnginePool.checkout
  by_cases h : s.available_permits = 0
  · rw [if_pos h]
  · rw [if_neg h]
    cases hE : s.engines with
    | nil => cases le <;> simp [hE]
    | cons e rest => simp [hE]

/-- `add_to_cache` never touches the statistics at all. -/
theorem add_to_cache_stats (env : Env) (s : PoolState) (k : String)
    (st : Style) (s' : PoolState)
    (h : TTSEnginePool.add_to_cache env s k st = .ok s') :
    s'.stats = s.stats := by
  unfold TTSEnginePool.add_to_cache at h
  split at h
  · cases h
  · cases h; rfl

/-- `get_voice_style` never touches the replacement counter. -/
theorem get_voice_style_replacements (env : Env) (s : PoolState) (p : String) :
    (TTSEnginePool.get_voice_style env s p).1.stats.engine_replacements
      = s.stats.engine_replacements := by
  unfold TTSEnginePool.get_voice_style TTSEnginePool.getStyleMiss
  cases hL : lookupCache s.voice_cache (cacheKey env p) with
  | some entry =>
    simp only [hL]
    by_cases hV : entry.is_valid env
    · simp [hV]
    · simp only [hV, Bool.false_eq_true, if_false]
      cases hS : env.load_style p with
      | none => simp [hS]
      | some st =>
        simp only [hS]
        cases hA : TTSEnginePool.add_to_cache env
            { s with stats := { s.stats with
                cache_misses := s.stats.cache_misses + 1 } } (cacheKey env p) st with
        | error e => simp [hA]
        | ok s2 =>
          simp only [hA]
          rw [add_to_cache_stats _ _ _ _ _ hA]
  | none =>
    simp only [hL]
    cases hS : env.load_style p with
    | none => simp [hS]
    | some st =>
      simp only [hS]
      cases hA : TTSEnginePool.add_to_cache env
          { s with stats := { s.stats with
              cache_misses := s.stats.cache_misses + 1 } } (cacheKey env p) st with
      | error e => simp [hA]
      | ok s2 =>
        simp only [hA]
        rw [add_to_cache_stats _ _ _ _ _ hA]

/-- C10: no pool operation increments the replacement counter, so every
stats snapshot of a reachable pool state reports
`engine_replacements = 0`. -/
theorem c10_replacements_zero_forever (s : PoolState) (h : PoolReachable s) :
    (TTSEnginePool.get_stats s).engine_replacements = 0 := by
  induction h with
  | init cfg loads s hn => exact new_ok_replacements_zero cfg loads s hn
  | checkout s s' le r _ heq ih =>
    have h1 : (TTSEnginePool.checkout s le).1 = s' := by rw [heq]
    show s'.stats.engine_replacements = 0
    rw [← h1, checkout_replacements]
    exact ih
  | style s s' env p r _ heq ih =>
    have h1 : (TTSEnginePool.get_voice_style env s p).1 = s' := by rw [heq]
    show s'.stats.engine_replacements = 0
    rw [← h1, get_voice_style_replacements]
    exact ih
  | shutdown s _ ih => exact ih

/-- Witness for C10 at a freshly warmed pool. -/
theorem c10_witness :
    (TTSEnginePool.get_stats preOne).engine_replacements = 0 :=
  c10_replacements_zero_forever preOne
    (PoolReachable.init cfgOne (fun _ => some "e1") preOne rfl)

/-! Lemmas about the association-list cache operations. -/

/-- Looking up the key just inserted finds the new entry. -/
theorem lookupCache_insertCache_self (c : List (String × CacheEntry))
    (k : String) (e : CacheEntry) :
    lookupCache (insertCache c k e) k = some e := by
  unfold insertCache
  induction c with
  | nil => simp [eraseKey, lookupCache]
  | cons p rest ih =>
    obtain ⟨k1, e1⟩ := p
    by_cases h : k1 = k
    · simpa [eraseKey, h] using ih
    · simpa [eraseKey, h, lookupCache] using ih

/-- A key that is absent stays absent under key removal. -/
theorem lookupCache_eraseKey_none (c : List (String × CacheEntry))
    (k j : String) (h : lookupCache c k = none) :
    lookupCache (eraseKey c j) k = none := by
  induction c with
  | nil => rfl
  | cons p rest ih =>
    obtain ⟨k1, e1⟩ := p
    unfold lookupCache at h
    by_cases hk : k1 = k
    · rw [if_pos hk] at h; cases h
    · rw [if_neg hk] at h
      unfold eraseKey
      by_cases hj : k1 = j
      · rw [if_pos hj]; exact ih h
      · rw [if_neg hj]
        unfold lookupCache
        rw [if_neg hk]
        exact ih h

/-- Removing an absent key is a no-op. -/
theorem eraseKey_of_lookup_none (c : List (String × CacheEntry)) (k : String)
    (h : lookupCache c k = none) : eraseKey c k = c := by
  induction c with
  | nil => rfl
  | cons p rest ih =>
    obtain ⟨k1, e1⟩ := p
    unfold lookupCache at h
    by_cases hk : k1 = k
    · rw [if_pos hk] at h; cases h
    · rw [if_neg hk] at h
      unfold eraseKey
      rw [if_neg hk, ih h]

/-- Removal never lengthens the list. -/
theorem eraseKey_length_le (c : List (String × CacheEntry)) (k : String) :
    (eraseKey c k).length ≤ c.length := by
  induction c with
  | nil => simp [eraseKey]
  | cons p rest ih =>
    obtain ⟨k1, e1⟩ := p
    unfold eraseKey
    by_cases hk : k1 = k
    · rw [if_pos hk]; exact Nat.le_succ_of_le ih
    · rw [if_neg hk]; simpa using ih

/-- Removing a present key strictly shortens the list. -/
theorem eraseKey_length_lt (c : List (String × CacheEntry)) (k : String)
    (e : CacheEntry) (h : (k, e) ∈ c) :
    (eraseKey c k).length < c.length := by
  induction c with
  | nil => cases h
  | cons p rest ih =>
    obtain ⟨k1, e1⟩ := p
    unfold eraseKey
    by_cases hk : k1 = k
    · rw [if_pos hk]
      exact Nat.lt_succ_of_le (eraseKey_length_le rest k)
    · rw [if_neg hk]
      rcases List.mem_cons.mp h with h1 | h1
      · cases h1; exact absurd rfl hk
      · simpa using ih h1

/-- Removing a key that is not among the keys is a no-op. -/
theorem eraseKey_of_not_mem_keys (c : List (String × CacheEntry)) (k : String)
    (h : k ∉ c.map Prod.fst) : eraseKey c k = c := by
  induction c with
  | nil => rfl
  | cons p rest ih =>
    obtain ⟨k1, e1⟩ := p
    simp only [List.map_cons, List.mem_cons] at h
    push_neg at h
    unfold eraseKey
    rw [if_neg (fun he => h.1 he.symm), ih h.2]

/-- With distinct keys, removing a present key drops exactly one
binding. -/
theorem eraseKey_length_nodup (c : List (String × CacheEntry)) (k : String)
    (e : CacheEntry) (hnd : (c.map Prod.fst).Nodup) (h : (k, e) ∈ c) :
    (eraseKey c k).length + 1 = c.length := by
  induction c with
  | nil => cases h
  | cons p rest ih =>
    obtain ⟨k1, e1⟩ := p
    simp only [List.map_cons, List.nodup_cons] at hnd
    unfold eraseKey
    by_cases hk : k1 = k
    · rw [if_pos hk]
      rw [eraseKey_of_not_mem_keys rest k (hk ▸ hnd.1)]
      simp
    · rw [if_neg hk]
      rcases List.mem_cons.mp h with h1 | h1
      · cases h1; exact absurd rfl hk
      · simpa using ih hnd.2 h1

/-- An empty minimum means an empty list. -/
theorem minByAccess_none (c : List (String × CacheEntry))
    (h : minByAccess c = none) : c = [] := by
  cases c with
  | nil => rfl
  | cons x rest =>
    unfold minByAccess at h
    cases hr : minByAccess rest with
    | none => rw [hr] at h; cases h
    | some y =>
      rw [hr] at h
      dsimp only at h
      by_cases hlt : y.2.last_accessed < x.2.last_accessed
      · rw [if_pos hlt] at h; cases h
      · rw [if_neg hlt] at h; cases h

/-- The computed minimum is a member of the list. -/
theorem minByAccess_mem (c : List (String × CacheEntry))
    (x : String × CacheEntry) (h : minByAccess c = some x) : x ∈ c := by
  induction c generalizing x with
  | nil => cases h
  | cons y rest ih =>
    unfold minByAccess at h
    cases hr : minByAccess rest with
    | none =>
      rw [hr] at h
      have hx : y = x := by injection h
      subst hx
      exact List.mem_cons_self y rest
    | some z =>
      rw [hr] at h
      dsimp only at h
      by_cases hlt : z.2.last_accessed < y.2.last_accessed
      · rw [if_pos hlt] at h
        have hx : z = x := by injection h
        subst hx
        exact List.mem_cons_of_mem y (ih z hr)
      · rw [if_neg hlt] at h
        have hx : y = x := by injection h
        subst hx
        exact List.mem_cons_self y rest

/-- The computed minimum has the least last-access time. -/
theorem minByAccess_le (c : List (String × CacheEntry))
    (x : String × CacheEntry) (h : minByAccess c = some x) :
    ∀ q ∈ c, x.2.last_accessed ≤ q.2.last_accessed := by
  induction c generalizing x with
  | nil => cases h
  | cons y rest ih =>
    intro q hq
    unfold minByAccess at h
    cases hr : minByAccess rest with
    | none =>
      rw [hr] at h
      have hx : y = x := by injection h
      subst hx
      have : rest = [] := minByAccess_none rest hr
      subst this
      rcases List.mem_cons.mp hq with h1 | h1
      · rw [h1]
      · cases h1
    | some z =>
      rw [hr] at h
      dsimp only at h
      by_cases hlt : z.2.last_accessed < y.2.last_accessed
      · rw [if_pos hlt] at h
        have hx : z = x := by injection h
        subst hx
        rcases List.mem_cons.mp hq with h1 | h1
        · rw [h1]; exact Nat.le_of_lt hlt
        · exact ih z hr q h1
      · rw [if_neg hlt] at h
        have hx : y = x := by injection h
        subst hx
        rcases List.mem_cons.mp hq with h1 | h1
        · rw [h1]
        · exact Nat.le_trans (Nat.le_of_not_lt hlt) (ih z hr q h1)

/-! Execution lemmas for the cache operations. -/

/-- `add_to_cache` with readable metadata succeeds and performs the
evict-then-insert step. -/
theorem add_to_cache_ok (env : Env) (s : PoolState) (k : String) (st : Style)
    (info : FileInfo) (hfs : env.fs k = some info) :
    TTSEnginePool.add_to_cache env s k st
      = .ok { s with voice_cache :=
          (insertCache (TTSEnginePool.evictIfFull s.config.voice_style_cache_size
            s.voice_cache) k ⟨st, env.now, k, info.mtime⟩) } := by
  unfold TTSEnginePool.add_to_cache CacheEntry.new
  rw [hfs]

/-- A `get_voice_style` call that misses (no binding for the key) loads
the style, counts the miss, and inserts the freshly stamped entry. -/
theorem get_voice_style_miss_run (env : Env) (s : PoolState) (p : String)
    (st : Style) (info : FileInfo)
    (hmiss : lookupCache s.voice_cache (cacheKey env p) = none)
    (hld : env.load_style p = some st)
    (hfs : env.fs (cacheKey env p) = some info) :
    TTSEnginePool.get_voice_style env s p
      = ({ s with
            stats := { s.stats with cache_misses := s.stats.cache_misses + 1 }
            voice_cache :=
              (insertCache (TTSEnginePool.evictIfFull
                  s.config.voice_style_cache_size s.voice_cache)
                (cacheKey env p) ⟨st, env.now, cacheKey env p, info.mtime⟩) },
         .ok st) := by
  have hadd := add_to_cache_ok env
    { s with stats := { s.stats with cache_misses := s.stats.cache_misses + 1 } }
    (cacheKey env p) st info hfs
  unfold TTSEnginePool.get_voice_style TTSEnginePool.getStyleMiss
  simp only [hmiss, hld, hadd]

/-- A `get_voice_style` call that finds an invalid entry behaves exactly
like a miss: it reloads and replaces the entry. -/
theorem get_voice_style_invalid_run (env : Env) (s : PoolState) (p : String)
    (entry : CacheEntry) (st : Style) (info : FileInfo)
    (hfound : lookupCache s.voice_cache (cacheKey env p) = some entry)
    (hval : CacheEntry.is_valid env entry = false)
    (hld : env.load_style p = some st)
    (hfs : env.fs (cacheKey env p) = some info) :
    TTSEnginePool.get_voice_style env s p
      = ({ s with
            stats := { s.stats with cache_misses := s.stats.cache_misses + 1 }
            voice_cache :=
              (insertCache (TTSEnginePool.evictIfFull
                  s.config.voice_style_cache_size s.voice_cache)
                (cacheKey env p) ⟨st, env.now, cacheKey env p, info.mtime⟩) },
         .ok st) := by
  have hadd := add_to_cache_ok env
    { s with stats := { s.stats with cache_misses := s.stats.cache_misses + 1 } }
    (cacheKey env p) st info hfs
  unfold TTSEnginePool.get_voice_style TTSEnginePool.getStyleMiss
  simp only [hfound, hval, Bool.false_eq_true, if_false, hld, hadd]

/-- A `get_voice_style` call that finds a valid entry counts the hit and
returns the cached value, leaving the cache map untouched. -/
theorem get_voice_style_hit_run (env : Env) (s : PoolState) (p : String)
    (entry : CacheEntry)
    (hfound : lookupCache s.voice_cache (cacheKey env p) = some entry)
    (hval : CacheEntry.is_valid env entry = true) :
    TTSEnginePool.get_voice_style env s p
      = ({ s with stats := { s.stats with cache_hits := s.stats.cache_hits + 1 } },
         .ok entry.voice_style) := by
  unfold TTSEnginePool.get_voice_style
  simp only [hfound, hval, if_pos]

/-- An entry whose recorded modification time equals the on-disk record
is valid. -/
theorem is_valid_of_unchanged (env : Env) (e : CacheEntry) (info : FileInfo)
    (hfs : env.fs e.file_path = some info) (hm : e.file_modified = info.mtime) :
    CacheEntry.is_valid env e = true := by
  obtain ⟨mt⟩ := info
  simp only at hm
  unfold CacheEntry.is_valid
  rw [hfs, hm]
  cases mt with
  | none => rfl
  | some t => simp

/-- An entry is invalid once the on-disk modification time advances past
the recorded one. -/
theorem is_valid_false_of_advanced (env : Env) (e : CacheEntry)
    (t t2 : Nat) (hfs : env.fs e.file_path = some ⟨some t2⟩)
    (hm : e.file_modified = some t) (hlt : t < t2) :
    CacheEntry.is_valid env e = false := by
  unfold CacheEntry.is_valid
  rw [hfs, hm]
  simpa using hlt

/-- Characterization of invalidity: `is_valid` is false exactly under
the spec condition (file gone, or on-disk modification time strictly
newer than the recorded one). -/
theorem is_valid_false_iff (env : Env) (e : CacheEntry) :
    CacheEntry.is_valid env e = false ↔ specEntryInvalid env e := by
  unfold CacheEntry.is_valid specEntryInvalid
  cases hfs : env.fs e.file_path with
  | none => simp [hfs]
  | some info =>
    obtain ⟨mt⟩ := info
    simp only [hfs]
    cases hm : e.file_modified with
    | none => simp [hm]
    | some cached =>
      cases mt with
      | none => simp
      | some current =>
        constructor
        · intro h
          refine Or.inr ⟨cached, current, ⟨some current⟩, rfl, rfl, rfl, ?_⟩
          simpa using h
        · intro h
          rcases h with h | ⟨c, cu, i, hc, hi, hmt2, hlt⟩
          · cases h
          · have hc2 : cached = c := by injection hc
            have hi2 : (⟨some current⟩ : FileInfo) = i := by injection hi
            subst hi2
            simp only at hmt2
            have hcu : current = cu := by injection hmt2
            subst hc2
            subst hcu
            simpa using hlt

/-- C6: an entry is invalid (hence a miss, causing reload and
replacement) exactly when its file no longer exists or the on-disk
modification time is strictly newer than the recorded one; a first
lookup misses and caches the entry, a repeated lookup on the unmodified
file is a hit returning the cached value, and advancing the modification
time forces a miss that reloads from disk. -/
theorem c6_mtime_invalidation (env env2 : Env) (s : PoolState) (p : String)
    (info : FileInfo) (st st2 : Style) (t t2 : Nat)
    (hfs : env.fs (cacheKey env p) = some info)
    (hld : env.load_style p = some st)
    (hmiss : lookupCache s.voice_cache (cacheKey env p) = none)
    (hcan : env2.canonical p = env.canonical p)
    (hmt : info.mtime = some t)
    (hfs2 : env2.fs (cacheKey env p) = some ⟨some t2⟩)
    (hlt : t < t2)
    (hld2 : env2.load_style p = some st2) :
    (∀ (env3 : Env) (e : CacheEntry),
        CacheEntry.is_valid env3 e = false ↔ specEntryInvalid env3 e) ∧
    (TTSEnginePool.get_voice_style env s p).2 = .ok st ∧
    (TTSEnginePool.get_voice_style env s p).1.stats.cache_misses
      = s.stats.cache_misses + 1 ∧
    lookupCache (TTSEnginePool.get_voice_style env s p).1.voice_cache
      (cacheKey env p) = some ⟨st, env.now, cacheKey env p, info.mtime⟩ ∧
    (TTSEnginePool.get_voice_style env
        (TTSEnginePool.get_voice_style env s p).1 p).2 = .ok st ∧
    (TTSEnginePool.get_voice_style env
        (TTSEnginePool.get_voice_style env s p).1 p).1.stats.cache_hits
      = (TTSEnginePool.get_voice_style env s p).1.stats.cache_hits + 1 ∧
    (TTSEnginePool.get_voice_style env2
        (TTSEnginePool.get_voice_style env s p).1 p).2 = .ok st2 ∧
    (TTSEnginePool.get_voice_style env2
        (TTSEnginePool.get_voice_style env s p).1 p).1.stats.cache_misses
      = (TTSEnginePool.get_voice_style env s p).1.stats.cache_misses + 1 := by
  have hrun := get_voice_style_miss_run env s p st info hmiss hld hfs
  have hfoundA : lookupCache (TTSEnginePool.get_voice_style env s p).1.voice_cache
      (cacheKey env p) = some ⟨st, env.now, cacheKey env p, info.mtime⟩ := by
    rw [hrun]
    exact lookupCache_insertCache_self _ _ _
  have hvalA : CacheEntry.is_valid env
      (⟨st, env.now, cacheKey env p, info.mtime⟩ : CacheEntry) = true :=
    is_valid_of_unchanged env _ info hfs rfl
  have hitrun := get_voice_style_hit_run env
    (TTSEnginePool.get_voice_style env s p).1 p _ hfoundA hvalA
  have hkey2 : cacheKey env2 p = cacheKey env p := by
    unfold cacheKey
    rw [hcan]
  have hfound2 : lookupCache (TTSEnginePool.get_voice_style env s p).1.voice_cache
      (cacheKey env2 p) = some ⟨st, env.now, cacheKey env p, info.mtime⟩ := by
    rw [hkey2]
    exact hfoundA
  have hval2 : CacheEntry.is_valid env2
      (⟨st, env.now, cacheKey env p, info.mtime⟩ : CacheEntry) = false :=
    is_valid_false_of_advanced env2 _ t t2 hfs2 hmt hlt
  have hfs2b : env2.fs (cacheKey env2 p) = some ⟨some t2⟩ := by
    rw [hkey2]
    exact hfs2
  have invrun := get_voice_style_invalid_run env2
    (TTSEnginePool.get_voice_style env s p).1 p _ st2 ⟨some t2⟩ hfound2 hval2
    hld2 hfs2b
  refine ⟨is_valid_false_iff, ?_, ?_, hfoundA, ?_, ?_, ?_, ?_⟩
  · rw [hrun]
  · rw [hrun]
  · rw [hitrun]
  · rw [hitrun]
  · rw [invrun]
  · rw [invrun]

/-- Environment holding style file `v` with modification time 1. -/
def envFirst : Env :=
  { fs := fun q => if q = "v" then some ⟨some 1⟩ else none
    canonical := fun _ => none
    load_style := fun _ => some ⟨7⟩
    now := 10 }

/-- The same file after an on-disk edit: modification time advanced
to 5, newer parsed content. -/
def envSecond : Env :=
  { fs := fun q => if q = "v" then some ⟨some 5⟩ else none
    canonical := fun _ => none
    load_style := fun _ => some ⟨8⟩
    now := 20 }

/-- Witness for C6: load, hit on the unmodified file, then reload after
the modification time advances. -/
theorem c6_witness :
    (TTSEnginePool.get_voice_style envFirst preOne "v").2 = .ok ⟨7⟩ ∧
    (TTSEnginePool.get_voice_style envFirst
        (TTSEnginePool.get_voice_style envFirst preOne "v").1 "v").2
      = .ok ⟨7⟩ ∧
    (TTSEnginePool.get_voice_style envSecond
        (TTSEnginePool.get_voice_style envFirst preOne "v").1 "v").2
      = .ok ⟨8⟩ :=
  ⟨(c6_mtime_invalidation envFirst envSecond preOne "v" ⟨some 1⟩ ⟨7⟩ ⟨8⟩ 1 5
      rfl rfl rfl rfl rfl rfl (by decide) rfl).2.1,
   (c6_mtime_invalidation envFirst envSecond preOne "v" ⟨some 1⟩ ⟨7⟩ ⟨8⟩ 1 5
      rfl rfl rfl rfl rfl rfl (by decide) rfl).2.2.2.2.1,
   (c6_mtime_invalidation envFirst envSecond preOne "v" ⟨some 1⟩ ⟨7⟩ ⟨8⟩ 1 5
      rfl rfl rfl rfl rfl rfl (by decide) rfl).2.2.2.2.2.2.1⟩

/-- Environment where every path exists with modification time 1. -/
def envCap : Env :=
  { fs := fun _ => some ⟨some 1⟩
    canonical := fun _ => none
    load_style := fun _ => some ⟨5⟩
    now := 50 }

/-- The capacity-0 pool after one cache insert. -/
def poolCapZeroAfter : PoolState :=
  { poolCapZero with voice_cache := [("a", ⟨⟨5⟩, 50, "a", some 1⟩)] }

/-- C7 counterexample: on the capacity-0 pool, which the constructor
accepts, an insert succeeds and leaves one cached entry, so cache
occupancy exceeds the configured capacity. -/
theorem c7_cex_capacity_zero_exceeded :
    TTSEnginePool.add_to_cache envCap poolCapZero "a" ⟨5⟩
      = .ok poolCapZeroAfter ∧
    poolCapZero.config.voice_style_cache_size = 0 ∧
    poolCapZeroAfter.voice_cache.length = 1 := ⟨rfl, rfl, rfl⟩

/-- C7 amended: for a configured capacity of at least 1, occupancy at
most the capacity is preserved by `add_to_cache`; and when a new key is
inserted into a full cache with distinct keys, exactly one entry is
evicted, one whose last-access time is least (the first such binding in
iteration order), and occupancy stays at the capacity. -/
theorem c7_lru_eviction (env : Env) (s : PoolState) (key : String)
    (style : Style) (s' : PoolState)
    (hcap : 1 ≤ s.config.voice_style_cache_size)
    (hok : TTSEnginePool.add_to_cache env s key style = .ok s') :
    (s.voice_cache.length ≤ s.config.voice_style_cache_size →
      s'.voice_cache.length ≤ s.config.voice_style_cache_size) ∧
    ((s.voice_cache.map Prod.fst).Nodup →
     lookupCache s.voice_cache key = none →
     s.voice_cache.length = s.config.voice_style_cache_size →
     ∃ lru entry,
       minByAccess s.voice_cache = some lru ∧
       lru ∈ s.voice_cache ∧
       (∀ q ∈ s.voice_cache, lru.2.last_accessed ≤ q.2.last_accessed) ∧
       CacheEntry.new env style key = .ok entry ∧
       s'.voice_cache = eraseKey s.voice_cache lru.1 ++ [(key, entry)] ∧
       s'.voice_cache.length = s.config.voice_style_cache_size) := by
  unfold TTSEnginePool.add_to_cache at hok
  cases hnew : CacheEntry.new env style key with
  | error e => rw [hnew] at hok; cases hok
  | ok entry =>
    rw [hnew] at hok
    have hs' : (insertCache (TTSEnginePool.evictIfFull
        s.config.voice_style_cache_size s.voice_cache) key entry)
        = s'.voice_cache := by
      injection hok with h
      rw [← h]
    constructor
    · intro hlen
      rw [← hs']
      unfold TTSEnginePool.evictIfFull
      by_cases hfull : s.config.voice_style_cache_size ≤ s.voice_cache.length
      · rw [if_pos hfull]
        cases hmin : minByAccess s.voice_cache with
        | none =>
          have h0 : s.voice_cache = [] := minByAccess_none _ hmin
          rw [h0] at hfull
          simp at hfull
          omega
        | some lru =>
          have hmem : lru ∈ s.voice_cache := minByAccess_mem _ _ hmin
          have h1 : (eraseKey s.voice_cache lru.1).length < s.voice_cache.length :=
            eraseKey_length_lt s.voice_cache lru.1 lru.2 hmem
          have h2 : (eraseKey (eraseKey s.voice_cache lru.1) key).length
              ≤ (eraseKey s.voice_cache lru.1).length :=
            eraseKey_length_le _ _
          unfold insertCache
          rw [List.length_append]
          simp only [List.length_singleton]
          omega
      · rw [if_neg hfull]
        have h2 : (eraseKey s.voice_cache key).length ≤ s.voice_cache.length :=
          eraseKey_length_le _ _
        unfold insertCache
        rw [List.length_append]
        simp only [List.length_singleton]
        omega
    · intro hnd hnone hfull_len
      cases hmin : minByAccess s.voice_cache with
      | none =>
        have h0 : s.voice_cache = [] := minByAccess_none _ hmin
        rw [h0] at hfull_len
        simp at hfull_len
        omega
      | some lru =>
        have hmem : lru ∈ s.voice_cache := minByAccess_mem _ _ hmin
        have hkeep : eraseKey (eraseKey s.voice_cache lru.1) key
            = eraseKey s.voice_cache lru.1 :=
          eraseKey_of_lookup_none _ _ (lookupCache_eraseKey_none _ _ _ hnone)
        have hcache : s'.voice_cache
            = eraseKey s.voice_cache lru.1 ++ [(key, entry)] := by
          rw [← hs']
          unfold TTSEnginePool.evictIfFull
          rw [if_pos (Nat.le_of_eq hfull_len.symm), hmin]
          unfold insertCache
          rw [hkeep]
        have hlen1 : (eraseKey s.voice_cache lru.1).length + 1
            = s.voice_cache.length :=
          eraseKey_length_nodup s.voice_cache lru.1 lru.2 hnd hmem
        refine ⟨lru, entry, rfl, hmem, minByAccess_le _ _ hmin, rfl, hcache, ?_⟩
        rw [hcache, List.length_append]
        simp only [List.length_singleton]
        omega

/-- A cached binding for path `a`, last accessed at time 3. -/
def entryOld : CacheEntry := ⟨⟨4⟩, 3, "a", some 1⟩

/-- A full capacity-1 pool holding only that binding. -/
def poolCapOne : PoolState :=
  { engines := ["e1"]
    available_permits := 1
    voice_cache := [("a", entryOld)]
    stats := ⟨0, 0, 0, 0⟩
    config := { EnginePoolConfig.default with voice_style_cache_size := 1 } }

/-- The capacity-1 pool after inserting a binding for the new path `b`. -/
def poolCapOneAfter : PoolState :=
  { poolCapOne with voice_cache := [("b", ⟨⟨5⟩, 50, "b", some 1⟩)] }

/-- Witness for C7 amended: inserting a second distinct path into the
full capacity-1 cache evicts exactly the single least-recently-accessed
entry and keeps occupancy at the capacity. -/
theorem c7_witness :
    poolCapOneAfter.voice_cache.length ≤ 1 ∧
    (∃ lru entry,
       minByAccess poolCapOne.voice_cache = some lru ∧
       lru ∈ poolCapOne.voice_cache ∧
       (∀ q ∈ poolCapOne.voice_cache,
         lru.2.last_accessed ≤ q.2.last_accessed) ∧
       CacheEntry.new envCap ⟨5⟩ "b" = .ok entry ∧
       poolCapOneAfter.voice_cache
         = eraseKey poolCapOne.voice_cache lru.1 ++ [("b", entry)] ∧
       poolCapOneAfter.voice_cache.length = 1) :=
  ⟨(c7_lru_eviction envCap poolCapOne "b" ⟨5⟩ poolCapOneAfter
      (by decide) rfl).1 (by decide),
   (c7_lru_eviction envCap poolCapOne "b" ⟨5⟩ poolCapOneAfter
      (by decide) rfl).2 (by decide) rfl rfl⟩
